import Mathlib

/-!
Verification development for the per-community session and channel-group
orchestration engine of the lovecraftbot repository.

The development shallowly embeds the relevant source code:

* the BlobGame domain object (src/domain/BlobGame.ts),
* the BlobGameService orchestration facade (src/services/BlobGameService.ts),
* the MassMultiplayerEventService channel-group registry
  (src/services/MassMultiplayerEventService.ts).

JavaScript numbers holding integer quantities are embedded as Int, dates as
integer timestamps, fallible calls as Except, and optional values as Option.
External collaborators (the random source, the file repository, the Discord
channel API) are embedded as explicit parameters or explicit state.
-/

namespace LovecraftBot

/-- Dates are embedded as integer timestamps (milliseconds since the epoch);
only their linear order matters to the code under verification. -/
abbrev Date := Int

/-- The fixed four-element narrative set BlobGame.POSSIBLE_STORIES. -/
def POSSIBLE_STORIES : List String :=
  ["RESCUE_THE_CHEMIST",
   "RECOVER_THE_SAMPLE",
   "DRIVE_OFF_THE_MIGO",
   "DEFUSE_THE_EXPLOSIVES"]

/-- Constant BlobGame.PER_INVESTIGATOR_TOTAL_HEALTH. -/
def PER_INVESTIGATOR_TOTAL_HEALTH : Int := 15

/-- Constant BlobGame.PER_INVESTIGATOR_ACT1_CLUE_THRESHOLD. -/
def PER_INVESTIGATOR_ACT1_CLUE_THRESHOLD : Int := 15

/-- State of a BlobGame domain object. The dateEnded field is not part of the
available BlobGame source excerpt but is read and written by BlobGameService;
it is Modelled from the spec: an optional end timestamp whose absence means
the session is running. -/
structure BlobGame where
  id : Int
  dateCreated : Date
  numberOfPlayers : Int
  numberOfDamageDealtToBlob : Int
  numberOfCluesOnAct1 : Int
  numberOfCounterMeasures : Int
  story : Option String
  dateEnded : Option Date
deriving DecidableEq, Repr

/-- The BlobGame constructor: both progress counters start at zero and the
countermeasure pool starts at Math.ceil(numberOfPlayers / 2). For every
integer n, Math.ceil(n / 2) equals the floor of (n + 1) / 2, and Int division
by the positive constant 2 is exactly that floor. -/
def BlobGame.new (id : Int) (dateCreated : Date) (numberOfPlayers : Int) : BlobGame :=
  { id := id
    dateCreated := dateCreated
    numberOfPlayers := numberOfPlayers
    numberOfDamageDealtToBlob := 0
    numberOfCluesOnAct1 := 0
    numberOfCounterMeasures := (numberOfPlayers + 1) / 2
    story := none
    dateEnded := none }

/-- Accessor BlobGame.getId. -/
def BlobGame.getId (g : BlobGame) : Int := g.id

/-- Accessor BlobGame.getDateCreated. -/
def BlobGame.getDateCreated (g : BlobGame) : Date := g.dateCreated

/-- Accessor BlobGame.getNumberOfPlayers. -/
def BlobGame.getNumberOfPlayers (g : BlobGame) : Int := g.numberOfPlayers

/-- Accessor BlobGame.getBlobTotalHealth: players times 15. -/
def BlobGame.getBlobTotalHealth (g : BlobGame) : Int :=
  g.numberOfPlayers * PER_INVESTIGATOR_TOTAL_HEALTH

/-- Accessor BlobGame.getNumberOfDamageDealtToBlob. -/
def BlobGame.getNumberOfDamageDealtToBlob (g : BlobGame) : Int :=
  g.numberOfDamageDealtToBlob

/-- Accessor BlobGame.getBlobRemainingHealth: total health minus damage dealt,
with no clamping. -/
def BlobGame.getBlobRemainingHealth (g : BlobGame) : Int :=
  g.getBlobTotalHealth - g.numberOfDamageDealtToBlob

/-- Mutator BlobGame.dealDamageToBlob: adds amount to the damage counter. -/
def BlobGame.dealDamageToBlob (g : BlobGame) (amount : Int) : BlobGame :=
  { g with numberOfDamageDealtToBlob := g.numberOfDamageDealtToBlob + amount }

/-- Accessor BlobGame.getAct1ClueThreshold: players times 15. -/
def BlobGame.getAct1ClueThreshold (g : BlobGame) : Int :=
  g.numberOfPlayers * PER_INVESTIGATOR_ACT1_CLUE_THRESHOLD

/-- Accessor BlobGame.getNumberOfCluesOnAct1. -/
def BlobGame.getNumberOfCluesOnAct1 (g : BlobGame) : Int :=
  g.numberOfCluesOnAct1

/-- Mutator BlobGame.placeCluesOnAct1: adds numberOfClues to the clue counter. -/
def BlobGame.placeCluesOnAct1 (g : BlobGame) (numberOfClues : Int) : BlobGame :=
  { g with numberOfCluesOnAct1 := g.numberOfCluesOnAct1 + numberOfClues }

/-- Accessor BlobGame.getNumberOfCounterMeasures. -/
def BlobGame.getNumberOfCounterMeasures (g : BlobGame) : Int :=
  g.numberOfCounterMeasures

/-- Mutator BlobGame.gainCounterMeasures: adds to the countermeasure pool. -/
def BlobGame.gainCounterMeasures (g : BlobGame) (n : Int) : BlobGame :=
  { g with numberOfCounterMeasures := g.numberOfCounterMeasures + n }

/-- Mutator BlobGame.spendCounterMeasures: subtracts from the countermeasure
pool, with no floor check at this layer. -/
def BlobGame.spendCounterMeasures (g : BlobGame) (n : Int) : BlobGame :=
  { g with numberOfCounterMeasures := g.numberOfCounterMeasures - n }

/-- Accessor BlobGame.getStory. -/
def BlobGame.getStory (g : BlobGame) : Option String := g.story

/-- Accessor BlobGame.getDateEnded, Modelled from the spec: returns the
optional end timestamp (the accessor is called by BlobGameService but absent
from the available BlobGame source excerpt). -/
def BlobGame.getDateEnded (g : BlobGame) : Option Date := g.dateEnded

/-- Mutator BlobGame.endGame, Modelled from the spec: the end operation stamps
dateEnded (the mutator is called by BlobGameService but absent from the
available BlobGame source excerpt). -/
def BlobGame.endGame (g : BlobGame) (d : Date) : BlobGame :=
  { g with dateEnded := some d }

/-- BlobGame.chooseStory: throws unless the argument is a member of
POSSIBLE_STORIES, and otherwise records it. The thrown message interpolates
the offending value; the embedding carries that value as the error payload. -/
def BlobGame.chooseStory (g : BlobGame) (story : String) : Except String BlobGame :=
  if story ∈ POSSIBLE_STORIES then
    Except.ok { g with story := some story }
  else
    Except.error story

/-- State of the receiver after a chooseStory call, whether or not it threw:
a throw happens before the assignment, so the receiver keeps its old state. -/
def BlobGame.chooseStoryFinal (g : BlobGame) (story : String) : BlobGame :=
  match g.chooseStory story with
  | Except.ok g2 => g2
  | Except.error _ => g

/-- Repeated application of BlobGame.dealDamageToBlob to a list of amounts. -/
def BlobGame.dealDamageSeq (g : BlobGame) (ds : List Int) : BlobGame :=
  ds.foldl BlobGame.dealDamageToBlob g

/-- One step of the session object mutations considered by the counter
monotonicity claim: a dealDamageToBlob call or a placeCluesOnAct1 call. -/
inductive SessionOp
  | damage (amount : Int)
  | clues (amount : Int)
deriving DecidableEq, Repr

/-- The amount carried by a session mutation step. -/
def SessionOp.amount : SessionOp → Int
  | SessionOp.damage a => a
  | SessionOp.clues a => a

/-- Applies one session mutation step to a BlobGame. -/
def applySessionOp (g : BlobGame) (op : SessionOp) : BlobGame :=
  match op with
  | SessionOp.damage a => g.dealDamageToBlob a
  | SessionOp.clues a => g.placeCluesOnAct1 a

/-- Applies a sequence of session mutation steps from left to right. -/
def applySessionOps (g : BlobGame) (ops : List SessionOp) : BlobGame :=
  ops.foldl applySessionOp g

/-- BlobGameService.startNewGame, restricted to the session it builds: the
service constructs a BlobGame from the repository id, the current date and the
player count, draws a random index from RandomService.getRandomInt applied to
0 and POSSIBLE_STORIES.length - 1 (the random source is external, so the drawn
index is a parameter here), reads POSSIBLE_STORIES at that index (an
out-of-range read yields the JavaScript undefined, embedded as the getD
default) and chooses that story on the fresh game. -/
def startNewGame (nextId : Int) (now : Date) (numberOfPlayers : Int)
    (randomIndex : Nat) : Except String BlobGame :=
  let game := BlobGame.new nextId now numberOfPlayers
  let randomStory := POSSIBLE_STORIES.getD randomIndex ""
  game.chooseStory randomStory

/-- Comparator sortByDateDesc of BlobGameService.ts: positive when the first
game was created earlier, negative when it was created later, zero on ties. -/
def sortByDateDesc (bg1 bg2 : BlobGame) : Int :=
  if bg1.getDateCreated < bg2.getDateCreated then 1
  else if bg1.getDateCreated > bg2.getDateCreated then -1
  else 0

/-- Inserts a game into a list ordered by the sortByDateDesc comparator,
placing it before the first element it need not follow; this is the insertion
step of the stable comparator sort performed by the JavaScript runtime. -/
def insertByDateDesc (g : BlobGame) : List BlobGame → List BlobGame
  | [] => [g]
  | h :: t => if sortByDateDesc g h ≤ 0 then g :: h :: t else h :: insertByDateDesc g t

/-- The stable comparator sort Array.prototype.sort with sortByDateDesc,
embedded as an insertion sort: games ordered by decreasing creation date. -/
def sortGamesByDateDesc (l : List BlobGame) : List BlobGame :=
  l.foldr insertByDateDesc []

/-- BlobGameService.continueLatestGame as a function of the stored session
list and the current in-memory session of the community: when the store is
empty or holds no running session it returns none and leaves the current
session untouched, otherwise it installs the first game of the sorted running
list as current and returns that dateCreated of the installed game. The
result pairs the new current session with the returned value. -/
def continueLatestGame (stored : List BlobGame) (current : Option BlobGame) :
    Option BlobGame × Option Date :=
  if stored.length = 0 then (current, none)
  else
    let runningGames := stored.filter (fun game => game.getDateEnded.isNone)
    if runningGames.length = 0 then (current, none)
    else
      match sortGamesByDateDesc runningGames with
      | [] => (current, none)
      | m :: _ => (some m, some m.getDateCreated)

/-- State kept by BlobGameService for one community: the current in-memory
session and the persisted copy held by its BlobGameFileRepository. The
repository is Modelled from the spec: its save either succeeds, making the
persisted copy equal the saved game, or fails, leaving the persisted state
unchanged (the repository source is not part of the available excerpt). -/
structure BlobGameServiceState where
  currentGame : Option BlobGame
  persistedGame : Option BlobGame
deriving DecidableEq, Repr

/-- How one mutating BlobGameService call ends: rejected for lack of a current
session, resolved after a successful save, or rejected by a failed save. -/
inductive MutationOutcome
  | rejectedNoGame
  | saved
  | saveFailed
deriving DecidableEq, Repr

/-- Common shape of the four mutating BlobGameService session calls: reject
without mutating when the community has no current session, otherwise mutate
the in-memory session and then save it; the external save outcome is the
saveOk parameter. The in-memory mutation stays in place even when the save
fails. -/
def serviceMutateWith (mutate : BlobGame → BlobGame) (st : BlobGameServiceState)
    (saveOk : Bool) : BlobGameServiceState × MutationOutcome :=
  match st.currentGame with
  | none => (st, MutationOutcome.rejectedNoGame)
  | some game =>
    let mutated := mutate game
    if saveOk then
      ({ currentGame := some mutated, persistedGame := some mutated },
        MutationOutcome.saved)
    else
      ({ currentGame := some mutated, persistedGame := st.persistedGame },
        MutationOutcome.saveFailed)

/-- BlobGameService.dealDamageToBlob for one community. -/
def serviceDealDamageToBlob (st : BlobGameServiceState) (amount : Int)
    (saveOk : Bool) : BlobGameServiceState × MutationOutcome :=
  serviceMutateWith (fun g => g.dealDamageToBlob amount) st saveOk

/-- BlobGameService.placeCluesOnAct1 for one community. -/
def servicePlaceCluesOnAct1 (st : BlobGameServiceState) (numberOfClues : Int)
    (saveOk : Bool) : BlobGameServiceState × MutationOutcome :=
  serviceMutateWith (fun g => g.placeCluesOnAct1 numberOfClues) st saveOk

/-- BlobGameService.gainCounterMeasures for one community. -/
def serviceGainCounterMeasures (st : BlobGameServiceState) (n : Int)
    (saveOk : Bool) : BlobGameServiceState × MutationOutcome :=
  serviceMutateWith (fun g => g.gainCounterMeasures n) st saveOk

/-- BlobGameService.spendCounterMeasures for one community. -/
def serviceSpendCounterMeasures (st : BlobGameServiceState) (n : Int)
    (saveOk : Bool) : BlobGameServiceState × MutationOutcome :=
  serviceMutateWith (fun g => g.spendCounterMeasures n) st saveOk

/-- Discord channel kinds relevant to MassMultiplayerEventService. -/
inductive ChannelType
  | guildText
  | guildVoice
  | guildCategory
deriving DecidableEq, Repr

/-- A channel of the community as seen through the guild channel cache:
an identifier, a name, a kind, and an optional parent category identifier. -/
structure GuildChannel where
  id : Nat
  name : String
  type : ChannelType
  parentId : Option Nat
deriving DecidableEq, Repr

/-- The community side of the Discord API used by the service: the channel
cache and the next identifier the platform will assign to a created channel. -/
structure GuildState where
  channels : List GuildChannel
  nextChannelId : Nat
deriving DecidableEq, Repr

/-- The two configuration values MassMultiplayerEventService reads from
EnvService; none embeds an unset (JavaScript falsy) value. -/
structure EnvConfig where
  massMultiplayerEventCategoryName : Option String
  massMultiplayerEventAdminChannelName : Option String
deriving DecidableEq, Repr

/-- Failures MassMultiplayerEventService can raise: the two factory methods of
MassMultiplayerEventServiceError, plus the JavaScript TypeError raised when a
method of an undefined per-community entry is called. -/
inductive MassMultiplayerEventServiceError
  | configurationMissing
  | eventCategoryNotFound (categoryName : String)
  | undefinedHasNoProperties
deriving DecidableEq, Repr

/-- JavaScript strict equality between a possibly-undefined configured string
and an actual string: false whenever the configured value is undefined. -/
def jsStrEq (cfg : Option String) (s : String) : Bool :=
  cfg == some s

/-- Name of the parent category of a channel, when the parent resolves in the
community channel cache. -/
def parentName (guild : GuildState) (c : GuildChannel) : Option String :=
  c.parentId.bind (fun pid =>
    (guild.channels.find? (fun p => p.id == pid)).map GuildChannel.name)

/-- Predicate used by the find in getAdminChannel: the channel has a parent
whose name strictly equals the configured category name, is a text channel,
and has the configured admin channel name. -/
def isAdminChannelOf (env : EnvConfig) (guild : GuildState) (c : GuildChannel) : Bool :=
  (match parentName guild c with
    | some pn => jsStrEq env.massMultiplayerEventCategoryName pn
    | none => false)
  && c.type == ChannelType.guildText
  && jsStrEq env.massMultiplayerEventAdminChannelName c.name

/-- MassMultiplayerEventService.getAdminChannel: throws configurationMissing
only when both configuration values are unset, and otherwise returns the first
cached channel matching the category-plus-name convention, or none. -/
def getAdminChannel (env : EnvConfig) (guild : GuildState) :
    Except MassMultiplayerEventServiceError (Option GuildChannel) :=
  if env.massMultiplayerEventCategoryName.isNone
      && env.massMultiplayerEventAdminChannelName.isNone then
    Except.error MassMultiplayerEventServiceError.configurationMissing
  else
    Except.ok (guild.channels.find? (isAdminChannelOf env guild))

/-- MassMultiplayerEventService.getCategoryIdByName: identifier of the first
cached category channel with the given name. -/
def getCategoryIdByName (guild : GuildState) (categoryName : String) : Option Nat :=
  (guild.channels.find? (fun c =>
    c.type == ChannelType.guildCategory && c.name == categoryName)).map GuildChannel.id

/-- Creation of one channel through the platform API: the new channel receives
the next identifier, joins the end of the cache, and is given its parent. -/
def createChannel (guild : GuildState) (name : String) (type : ChannelType)
    (parentId : Option Nat) : GuildState × Nat :=
  let cid := guild.nextChannelId
  let newChannel : GuildChannel := { id := cid, name := name, type := type, parentId := parentId }
  ({ channels := guild.channels ++ [newChannel], nextChannelId := cid + 1 }, cid)

/-- Loop body of createGroupChannels for one group number: creates the text
channel and its companion voice channel under the category and appends both
identifiers to the community entry. -/
def createOneGroup (categoryId : Nat) (acc : GuildState × List Nat)
    (groupNumber : Nat) : GuildState × List Nat :=
  let step1 := createChannel acc.1 ("groupe-" ++ toString groupNumber)
    ChannelType.guildText (some categoryId)
  let step2 := createChannel step1.1 ("voice-groupe-" ++ toString groupNumber)
    ChannelType.guildVoice (some categoryId)
  (step2.1, acc.2 ++ [step1.2, step2.2])

/-- MassMultiplayerEventService.createGroupChannels: fails when the category
name is not configured or no category channel of that name exists, and
otherwise creates a text and a voice channel per group number 1..n, recording
their identifiers in the community entry (the source either pushes onto an
existing entry or installs a fresh two-element list, which amounts to
appending to the entry or to the empty list). The save of the updated state
logs failures without raising, so it does not appear in the result. -/
def createGroupChannels (env : EnvConfig) (guild : GuildState)
    (entry : Option (List Nat)) (numberOfGroups : Nat) :
    Except MassMultiplayerEventServiceError (GuildState × List Nat) :=
  match env.massMultiplayerEventCategoryName with
  | none => Except.error MassMultiplayerEventServiceError.configurationMissing
  | some categoryName =>
    match getCategoryIdByName guild categoryName with
    | none =>
      Except.error (MassMultiplayerEventServiceError.eventCategoryNotFound categoryName)
    | some categoryId =>
      Except.ok (((List.range numberOfGroups).map (fun i => i + 1)).foldl
        (createOneGroup categoryId) (guild, entry.getD []))

/-- MassMultiplayerEventService.cleanGroupChannels: raises the JavaScript
TypeError when the community has no entry at all; otherwise deletes every
listed channel that still resolves in the cache (an identifier that no longer
resolves is silently skipped), empties the entry, and saves. The result also
carries the identifiers whose deletion was attempted, in list order. -/
def cleanGroupChannels (guild : GuildState) (entry : Option (List Nat)) :
    Except MassMultiplayerEventServiceError (GuildState × List Nat × List Nat) :=
  match entry with
  | none => Except.error MassMultiplayerEventServiceError.undefinedHasNoProperties
  | some groupsId =>
    let deletedIds := groupsId.filter (fun gid =>
      (guild.channels.find? (fun c => c.id == gid)).isSome)
    let remaining := guild.channels.filter (fun c => !(groupsId.contains c.id))
    Except.ok ({ channels := remaining, nextChannelId := guild.nextChannelId },
      [], deletedIds)

/-- The group leg of broadcastMessage: walks the non-excluded identifiers in
order and keeps those resolving to a cached text channel; the embedding
returns the identifiers of the channels the content is sent to. -/
def groupSendIds (guild : GuildState) (groupsId : List Nat) : List Nat :=
  groupsId.foldl (fun memo gid =>
    match guild.channels.find? (fun c => c.id == gid) with
    | some c => if c.type == ChannelType.guildText then memo ++ [c.id] else memo
    | none => memo) []

/-- MassMultiplayerEventService.broadcastMessage: raises the JavaScript
TypeError when the community has no entry, filters out the excluded group
identifiers when an exclusion list is given, resolves the remaining ones to
live text channels, appends the admin channel when getAdminChannel finds one
(propagating its configuration error), and sends the content to each such
channel; the embedding returns the identifiers sent to, in send order. -/
def broadcastMessage (env : EnvConfig) (guild : GuildState)
    (entry : Option (List Nat)) (excludeGroupIds : Option (List Nat)) :
    Except MassMultiplayerEventServiceError (List Nat) :=
  match entry with
  | none => Except.error MassMultiplayerEventServiceError.undefinedHasNoProperties
  | some groupsId0 =>
    let groupsId := match excludeGroupIds with
      | some ex => groupsId0.filter (fun gid => !(ex.contains gid))
      | none => groupsId0
    match getAdminChannel env guild with
    | Except.error e => Except.error e
    | Except.ok none => Except.ok (groupSendIds guild groupsId)
    | Except.ok (some ac) => Except.ok (groupSendIds guild groupsId ++ [ac.id])

/-- The mutating calls exposed by the BlobGameService orchestration facade. -/
inductive FacadeOp
  | dealDamage (amount : Int)
  | placeClues (amount : Int)
  | gainCM (amount : Int)
  | spendCM (amount : Int)
deriving DecidableEq, Repr

/-- Dispatches a facade mutation to the corresponding service call. -/
def runFacadeOp (op : FacadeOp) (st : BlobGameServiceState) (saveOk : Bool) :
    BlobGameServiceState × MutationOutcome :=
  match op with
  | FacadeOp.dealDamage a => serviceDealDamageToBlob st a saveOk
  | FacadeOp.placeClues a => servicePlaceCluesOnAct1 st a saveOk
  | FacadeOp.gainCM a => serviceGainCounterMeasures st a saveOk
  | FacadeOp.spendCM a => serviceSpendCounterMeasures st a saveOk

/-- The in-memory session mutation performed by a facade mutation. -/
def facadeMutate (op : FacadeOp) (g : BlobGame) : BlobGame :=
  match op with
  | FacadeOp.dealDamage a => g.dealDamageToBlob a
  | FacadeOp.placeClues a => g.placeCluesOnAct1 a
  | FacadeOp.gainCM a => g.gainCounterMeasures a
  | FacadeOp.spendCM a => g.spendCounterMeasures a

/-- Expected channels produced by the createGroupChannels loop for the group
numbers in the list, starting at the given platform identifier: one text and
one voice channel per group, both parented to the category. This closed form
is related to the service loop by the fold characterization lemma. -/
def groupChannelsFrom (categoryId : Nat) (n0 : Nat) : List Nat → List GuildChannel
  | [] => []
  | k :: rest =>
    { id := n0, name := "groupe-" ++ toString k, type := ChannelType.guildText,
      parentId := some categoryId }
    :: { id := n0 + 1, name := "voice-groupe-" ++ toString k,
         type := ChannelType.guildVoice, parentId := some categoryId }
    :: groupChannelsFrom categoryId (n0 + 2) rest

/-- Concrete session used as the current and persisted session of the
mutation atomicity scenario. -/
def c2Game : BlobGame := BlobGame.new 1 0 4

/-- Concrete facade state whose in-memory and persisted sessions agree. -/
def c2State : BlobGameServiceState :=
  { currentGame := some c2Game, persistedGame := some c2Game }

/-- Concrete ended session A of the continue-latest scenario. -/
def gameA : BlobGame := (BlobGame.new 1 10 4).endGame 50

/-- Concrete running session B of the continue-latest scenario, created after
session A. -/
def gameB : BlobGame := BlobGame.new 2 20 4

/-- Concrete configuration with both the category and admin names set. -/
def envFull : EnvConfig :=
  { massMultiplayerEventCategoryName := some "events",
    massMultiplayerEventAdminChannelName := some "admin" }

/-- Concrete configuration with only the admin channel name set. -/
def envHalfAdminOnly : EnvConfig :=
  { massMultiplayerEventCategoryName := none,
    massMultiplayerEventAdminChannelName := some "admin" }

/-- Concrete configuration with only the category name set. -/
def envHalfCategoryOnly : EnvConfig :=
  { massMultiplayerEventCategoryName := some "events",
    massMultiplayerEventAdminChannelName := none }

/-- Concrete event category channel. -/
def categoryChannel : GuildChannel :=
  { id := 0, name := "events", type := ChannelType.guildCategory, parentId := none }

/-- Concrete admin channel under the event category. -/
def adminChannel : GuildChannel :=
  { id := 1, name := "admin", type := ChannelType.guildText, parentId := some 0 }

/-- Concrete community holding the event category and the admin channel. -/
def demoGuild : GuildState :=
  { channels := [categoryChannel, adminChannel], nextChannelId := 2 }

/-- Concrete text channel of group 1. -/
def groupTextChannel : GuildChannel :=
  { id := 10, name := "groupe-1", type := ChannelType.guildText, parentId := some 0 }

/-- Concrete voice channel of group 1. -/
def groupVoiceChannel : GuildChannel :=
  { id := 11, name := "voice-groupe-1", type := ChannelType.guildVoice, parentId := some 0 }

/-- Concrete community of the broadcast scenario: the event category, one
group text channel and one group voice channel, with no admin channel. -/
def broadcastGuild : GuildState :=
  { channels := [categoryChannel, groupTextChannel, groupVoiceChannel],
    nextChannelId := 12 }

/-- Concrete community of the broadcast scenario extended with the admin
channel. -/
def broadcastAdminGuild : GuildState :=
  { channels := [categoryChannel, adminChannel, groupTextChannel, groupVoiceChannel],
    nextChannelId := 12 }

/-- Fields of a session after a damage sequence: the damage counter grows by
the sum of the amounts and the player count is untouched. -/
theorem dealDamageSeq_fields (g : BlobGame) (ds : List Int) :
    (g.dealDamageSeq ds).numberOfDamageDealtToBlob
        = g.numberOfDamageDealtToBlob + ds.sum
      ∧ (g.dealDamageSeq ds).numberOfPlayers = g.numberOfPlayers := by
  induction ds generalizing g with
  | nil => simp [BlobGame.dealDamageSeq]
  | cons d rest ih =>
    have h := ih (g.dealDamageToBlob d)
    simp only [BlobGame.dealDamageSeq, List.foldl_cons] at h ⊢
    rcases h with ⟨h1, h2⟩
    refine ⟨?_, ?_⟩
    · rw [h1]
      simp [BlobGame.dealDamageToBlob]
      ring
    · rw [h2]
      rfl

/-- Claim C4: for every fresh session and every sequence of non-negative
damage amounts handed to successive dealDamageToBlob calls, the remaining
health equals the total health minus the sum of the amounts, with no
clamping, so the result may be negative. -/
theorem dealDamageSeq_remainingHealth (nextId : Int) (now : Date)
    (numberOfPlayers : Int) (ds : List Int) (hnonneg : ∀ d ∈ ds, 0 ≤ d) :
    ((BlobGame.new nextId now numberOfPlayers).dealDamageSeq ds).getBlobRemainingHealth
      = (BlobGame.new nextId now numberOfPlayers).getBlobTotalHealth - ds.sum := by
  have h := dealDamageSeq_fields (BlobGame.new nextId now numberOfPlayers) ds
  rcases h with ⟨h1, h2⟩
  simp only [BlobGame.getBlobRemainingHealth, BlobGame.getBlobTotalHealth, h1, h2]
  simp [BlobGame.new]

/-- Witness for claim C4: two players, damage amounts 10 then 50, remaining
health 30 minus 60, which is negative. -/
theorem dealDamageSeq_remainingHealth_witness :
    (∀ d ∈ ([10, 50] : List Int), 0 ≤ d)
      ∧ ((BlobGame.new 1 0 2).dealDamageSeq [10, 50]).getBlobRemainingHealth
          = (BlobGame.new 1 0 2).getBlobTotalHealth - ([10, 50] : List Int).sum
      ∧ ((BlobGame.new 1 0 2).dealDamageSeq [10, 50]).getBlobRemainingHealth < 0 :=
  ⟨by decide, dealDamageSeq_remainingHealth 1 0 2 [10, 50] (by decide), by decide⟩

/-- Claim C5: chooseStory fails with the invalid-argument error for every
value outside POSSIBLE_STORIES and leaves the narrative of the session
unchanged in that case; for every member it records exactly that value. -/
theorem chooseStory_closed_set (g : BlobGame) (x : String) :
    (x ∉ POSSIBLE_STORIES →
      g.chooseStory x = Except.error x
        ∧ (g.chooseStoryFinal x).getStory = g.getStory)
    ∧ (x ∈ POSSIBLE_STORIES →
      g.chooseStory x = Except.ok { g with story := some x }
        ∧ (g.chooseStoryFinal x).getStory = some x) := by
  constructor
  · intro hx
    simp [BlobGame.chooseStory, BlobGame.chooseStoryFinal, hx, BlobGame.getStory]
  · intro hx
    simp [BlobGame.chooseStory, BlobGame.chooseStoryFinal, hx, BlobGame.getStory]

/-- Witness for claim C5: a non-member value is rejected and the narrative
stays unset, while a member value is recorded. -/
theorem chooseStory_closed_set_witness :
    (BlobGame.new 1 0 4).chooseStory "NOT_A_STORY" = Except.error "NOT_A_STORY"
      ∧ ((BlobGame.new 1 0 4).chooseStoryFinal "NOT_A_STORY").getStory
          = (BlobGame.new 1 0 4).getStory
      ∧ ((BlobGame.new 1 0 4).chooseStoryFinal "RECOVER_THE_SAMPLE").getStory
          = some "RECOVER_THE_SAMPLE" :=
  ⟨((chooseStory_closed_set (BlobGame.new 1 0 4) "NOT_A_STORY").1 (by decide)).1,
   ((chooseStory_closed_set (BlobGame.new 1 0 4) "NOT_A_STORY").1 (by decide)).2,
   ((chooseStory_closed_set (BlobGame.new 1 0 4) "RECOVER_THE_SAMPLE").2 (by decide)).2⟩

/-- Counterexample to claim C6 as stated: a dealDamageToBlob call with a
negative amount decreases the damage counter and drives it negative, because
the session object performs no bounds checking. -/
theorem sessionOps_monotone_counterexample :
    ((BlobGame.new 1 0 4).dealDamageToBlob (-1)).getNumberOfDamageDealtToBlob
        < (BlobGame.new 1 0 4).getNumberOfDamageDealtToBlob
      ∧ ((BlobGame.new 1 0 4).dealDamageToBlob (-1)).getNumberOfDamageDealtToBlob < 0
      ∧ ((BlobGame.new 1 0 4).placeCluesOnAct1 (-2)).getNumberOfCluesOnAct1
        < (BlobGame.new 1 0 4).getNumberOfCluesOnAct1 := by
  decide

/-- Claim C6 as amended: over every sequence of dealDamageToBlob and
placeCluesOnAct1 calls whose amounts are non-negative, the damage and clue
counters never decrease. -/
theorem sessionOps_monotone (g : BlobGame) (ops : List SessionOp)
    (h : ∀ op ∈ ops, 0 ≤ op.amount) :
    g.getNumberOfDamageDealtToBlob
        ≤ (applySessionOps g ops).getNumberOfDamageDealtToBlob
      ∧ g.getNumberOfCluesOnAct1 ≤ (applySessionOps g ops).getNumberOfCluesOnAct1 := by
  induction ops generalizing g with
  | nil => simp [applySessionOps]
  | cons op rest ih =>
    have hop : 0 ≤ op.amount := h op (by simp)
    have hrest : ∀ o ∈ rest, 0 ≤ o.amount := fun o ho => h o (by simp [ho])
    have hih := ih (applySessionOp g op) hrest
    simp only [applySessionOps, List.foldl_cons] at hih ⊢
    rcases hih with ⟨hih1, hih2⟩
    cases op with
    | damage a =>
      simp only [applySessionOp, BlobGame.dealDamageToBlob, SessionOp.amount,
        BlobGame.getNumberOfDamageDealtToBlob, BlobGame.getNumberOfCluesOnAct1] at hih1 hih2 hop ⊢
      constructor <;> omega
    | clues a =>
      simp only [applySessionOp, BlobGame.placeCluesOnAct1, SessionOp.amount,
        BlobGame.getNumberOfDamageDealtToBlob, BlobGame.getNumberOfCluesOnAct1] at hih1 hih2 hop ⊢
      constructor <;> omega

/-- Witness for the amended claim C6: a damage call and a clue call with
non-negative amounts leave both counters at least as large as before. -/
theorem sessionOps_monotone_witness :
    (∀ op ∈ [SessionOp.damage 3, SessionOp.clues 2], 0 ≤ op.amount)
      ∧ (BlobGame.new 1 0 4).getNumberOfDamageDealtToBlob
          ≤ (applySessionOps (BlobGame.new 1 0 4)
              [SessionOp.damage 3, SessionOp.clues 2]).getNumberOfDamageDealtToBlob
      ∧ (BlobGame.new 1 0 4).getNumberOfCluesOnAct1
          ≤ (applySessionOps (BlobGame.new 1 0 4)
              [SessionOp.damage 3, SessionOp.clues 2]).getNumberOfCluesOnAct1 :=
  ⟨by decide,
   (sessionOps_monotone (BlobGame.new 1 0 4)
     [SessionOp.damage 3, SessionOp.clues 2] (by decide)).1,
   (sessionOps_monotone (BlobGame.new 1 0 4)
     [SessionOp.damage 3, SessionOp.clues 2] (by decide)).2⟩

/-- Claim C9: cleanGroupChannels for a community without any topology entry
raises the undefined-access error instead of completing as a no-op. -/
theorem cleanGroupChannels_no_entry (guild : GuildState) :
    cleanGroupChannels guild none
      = Except.error MassMultiplayerEventServiceError.undefinedHasNoProperties := rfl

/-- Claim C1: a session freshly created by startNewGame for a positive number
of players has total health players times 15, Act 1 clue threshold players
times 15, a countermeasure pool equal to the ceiling of players over 2 (the
integer characterized by the two displayed inequalities), zero damage dealt,
zero clues placed, and a narrative drawn from the four-element set. The drawn
random index is in range for the four-element story list. -/
theorem startNewGame_fresh_session (nextId : Int) (now : Date)
    (numberOfPlayers : Int) (randomIndex : Nat) (hplayers : 0 < numberOfPlayers)
    (hindex : randomIndex < POSSIBLE_STORIES.length) :
    ∃ g, startNewGame nextId now numberOfPlayers randomIndex = Except.ok g
      ∧ g.getBlobTotalHealth = numberOfPlayers * 15
      ∧ g.getAct1ClueThreshold = numberOfPlayers * 15
      ∧ numberOfPlayers ≤ 2 * g.getNumberOfCounterMeasures
      ∧ 2 * g.getNumberOfCounterMeasures ≤ numberOfPlayers + 1
      ∧ g.getNumberOfDamageDealtToBlob = 0
      ∧ g.getNumberOfCluesOnAct1 = 0
      ∧ ∃ s, g.getStory = some s ∧ s ∈ POSSIBLE_STORIES := by
  have hmem : POSSIBLE_STORIES.getD randomIndex "" ∈ POSSIBLE_STORIES := by
    simp only [POSSIBLE_STORIES, List.length] at hindex
    interval_cases randomIndex <;> decide
  refine ⟨{ BlobGame.new nextId now numberOfPlayers with
    story := some (POSSIBLE_STORIES.getD randomIndex "") }, ?_, ?_, ?_, ?_, ?_, ?_, ?_, ?_⟩
  · simp only [startNewGame, BlobGame.chooseStory]
    rw [if_pos hmem]
  · simp [BlobGame.getBlobTotalHealth, BlobGame.new, PER_INVESTIGATOR_TOTAL_HEALTH]
  · simp [BlobGame.getAct1ClueThreshold, BlobGame.new,
      PER_INVESTIGATOR_ACT1_CLUE_THRESHOLD]
  · simp only [BlobGame.getNumberOfCounterMeasures, BlobGame.new]
    omega
  · simp only [BlobGame.getNumberOfCounterMeasures, BlobGame.new]
    omega
  · simp [BlobGame.getNumberOfDamageDealtToBlob, BlobGame.new]
  · simp [BlobGame.getNumberOfCluesOnAct1, BlobGame.new]
  · exact ⟨POSSIBLE_STORIES.getD randomIndex "", by simp [BlobGame.getStory], hmem⟩

/-- Witness for claim C1: five players and random index 2 give a fresh session
with the expected counters and the third story of the set. -/
theorem startNewGame_fresh_session_witness :
    (0 : Int) < 5 ∧ 2 < POSSIBLE_STORIES.length
      ∧ ∃ g, startNewGame 7 100 5 2 = Except.ok g
        ∧ g.getBlobTotalHealth = 5 * 15
        ∧ g.getAct1ClueThreshold = 5 * 15
        ∧ (5 : Int) ≤ 2 * g.getNumberOfCounterMeasures
        ∧ 2 * g.getNumberOfCounterMeasures ≤ 5 + 1
        ∧ g.getNumberOfDamageDealtToBlob = 0
        ∧ g.getNumberOfCluesOnAct1 = 0
        ∧ ∃ s, g.getStory = some s ∧ s ∈ POSSIBLE_STORIES :=
  ⟨by decide, by decide, startNewGame_fresh_session 7 100 5 2 (by decide) (by decide)⟩

/-- Counterexample to claim C2 as stated: a dealDamageToBlob facade call whose
repository save fails does not complete, yet it leaves the in-memory session
mutated and diverged from the persisted state, so a failing mutation does not
leave both states unchanged. -/
theorem facadeMutation_atomic_counterexample :
    (serviceDealDamageToBlob c2State 1 false).2 ≠ MutationOutcome.saved
      ∧ (serviceDealDamageToBlob c2State 1 false).1.currentGame ≠ c2State.currentGame
      ∧ (serviceDealDamageToBlob c2State 1 false).1.currentGame
          ≠ (serviceDealDamageToBlob c2State 1 false).1.persistedGame := by
  decide

/-- Claim C2 as amended: a mutating facade call with no current session fails
fast with nothing mutated; with a current session and a successful save it
completes with the updated session visible both in memory and persisted; with
a current session and a failing save it reports the failure, but the
in-memory session keeps the mutation while the persisted state does not, so
the two diverge until a later successful save. -/
theorem facadeMutation_effects (op : FacadeOp) (st : BlobGameServiceState)
    (saveOk : Bool) :
    (st.currentGame = none →
      runFacadeOp op st saveOk = (st, MutationOutcome.rejectedNoGame))
    ∧ (∀ g, st.currentGame = some g → saveOk = true →
      runFacadeOp op st saveOk =
        ({ currentGame := some (facadeMutate op g),
           persistedGame := some (facadeMutate op g) }, MutationOutcome.saved))
    ∧ (∀ g, st.currentGame = some g → saveOk = false →
      runFacadeOp op st saveOk =
        ({ currentGame := some (facadeMutate op g),
           persistedGame := st.persistedGame }, MutationOutcome.saveFailed)) := by
  have hgen : ∀ mutate : BlobGame → BlobGame,
      (st.currentGame = none →
        serviceMutateWith mutate st saveOk = (st, MutationOutcome.rejectedNoGame))
      ∧ (∀ g, st.currentGame = some g → saveOk = true →
        serviceMutateWith mutate st saveOk =
          ({ currentGame := some (mutate g),
             persistedGame := some (mutate g) }, MutationOutcome.saved))
      ∧ (∀ g, st.currentGame = some g → saveOk = false →
        serviceMutateWith mutate st saveOk =
          ({ currentGame := some (mutate g),
             persistedGame := st.persistedGame }, MutationOutcome.saveFailed)) := by
    intro mutate
    refine ⟨?_, ?_, ?_⟩
    · intro hnone
      simp [serviceMutateWith, hnone]
    · intro g hsome hok
      simp [serviceMutateWith, hsome, hok]
    · intro g hsome hko
      simp [serviceMutateWith, hsome, hko]
  cases op with
  | dealDamage a =>
    exact hgen (fun g => g.dealDamageToBlob a)
  | placeClues a =>
    exact hgen (fun g => g.placeCluesOnAct1 a)
  | gainCM a =>
    exact hgen (fun g => g.gainCounterMeasures a)
  | spendCM a =>
    exact hgen (fun g => g.spendCounterMeasures a)

/-- Witness for the amended claim C2: a spendCounterMeasures call on a state
with a current session and a failing save keeps the mutation in memory while
the persisted copy is unchanged. -/
theorem facadeMutation_effects_witness :
    c2State.currentGame = some c2Game
      ∧ runFacadeOp (FacadeOp.spendCM 2) c2State false =
          ({ currentGame := some (facadeMutate (FacadeOp.spendCM 2) c2Game),
             persistedGame := c2State.persistedGame }, MutationOutcome.saveFailed) :=
  ⟨by decide,
   (facadeMutation_effects (FacadeOp.spendCM 2) c2State false).2.2 c2Game
     (by decide) (by decide)⟩

/-- The comparator is non-positive exactly when the first game was created no
earlier than the second. -/
theorem sortByDateDesc_nonpos (g h : BlobGame) :
    sortByDateDesc g h ≤ 0 ↔ h.getDateCreated ≤ g.getDateCreated := by
  unfold sortByDateDesc
  split_ifs with h1 h2
  · constructor
    · intro hx
      exact absurd hx (by norm_num)
    · intro hx
      exact absurd h1 (not_lt.mpr hx)
  · constructor
    · intro hx
      exact le_of_lt h2
    · intro hx
      norm_num
  · constructor
    · intro hx
      exact le_of_not_lt h1
    · intro hx
      norm_num

/-- Membership in an insertion step. -/
theorem mem_insertByDateDesc {x g : BlobGame} {l : List BlobGame} :
    x ∈ insertByDateDesc g l ↔ x = g ∨ x ∈ l := by
  induction l with
  | nil => simp [insertByDateDesc]
  | cons h t ih =>
    simp only [insertByDateDesc]
    by_cases hc : sortByDateDesc g h ≤ 0
    · simp [hc]
    · simp [hc, ih]
      tauto

/-- Unfolding of the embedded sort on a cons cell. -/
theorem sortGamesByDateDesc_cons (h : BlobGame) (t : List BlobGame) :
    sortGamesByDateDesc (h :: t) = insertByDateDesc h (sortGamesByDateDesc t) := rfl

/-- Membership is preserved by the embedded sort. -/
theorem mem_sortGamesByDateDesc {x : BlobGame} {l : List BlobGame} :
    x ∈ sortGamesByDateDesc l ↔ x ∈ l := by
  induction l with
  | nil => simp [sortGamesByDateDesc]
  | cons h t ih =>
    rw [sortGamesByDateDesc_cons, mem_insertByDateDesc, ih]
    simp

/-- An insertion step preserves the descending-date ordering. -/
theorem pairwise_insertByDateDesc (g : BlobGame) (l : List BlobGame)
    (hl : l.Pairwise (fun a b => b.getDateCreated ≤ a.getDateCreated)) :
    (insertByDateDesc g l).Pairwise
      (fun a b => b.getDateCreated ≤ a.getDateCreated) := by
  induction l with
  | nil => simp [insertByDateDesc]
  | cons h t ih =>
    rcases List.pairwise_cons.mp hl with ⟨hh, ht⟩
    by_cases hc : sortByDateDesc g h ≤ 0
    · have hgh : h.getDateCreated ≤ g.getDateCreated :=
        (sortByDateDesc_nonpos g h).mp hc
      simp only [insertByDateDesc, if_pos hc]
      refine List.pairwise_cons.mpr ⟨?_, hl⟩
      intro y hy
      rcases List.mem_cons.mp hy with rfl | hyt
      · exact hgh
      · exact le_trans (hh y hyt) hgh
    · have hgh : g.getDateCreated < h.getDateCreated := by
        rcases lt_or_le h.getDateCreated g.getDateCreated with hlt | hle
        · exact absurd ((sortByDateDesc_nonpos g h).mpr (le_of_lt hlt)) hc
        · rcases lt_or_eq_of_le hle with hlt | heq
          · exact hlt
          · exact absurd ((sortByDateDesc_nonpos g h).mpr (le_of_eq heq.symm)) hc
      simp only [insertByDateDesc, if_neg hc]
      refine List.pairwise_cons.mpr ⟨?_, ih ht⟩
      intro y hy
      rcases mem_insertByDateDesc.mp hy with rfl | hyt
      · exact le_of_lt hgh
      · exact hh y hyt

/-- The embedded sort orders games by descending creation date. -/
theorem pairwise_sortGamesByDateDesc (l : List BlobGame) :
    (sortGamesByDateDesc l).Pairwise
      (fun a b => b.getDateCreated ≤ a.getDateCreated) := by
  induction l with
  | nil => simp [sortGamesByDateDesc]
  | cons h t ih =>
    rw [sortGamesByDateDesc_cons]
    exact pairwise_insertByDateDesc h _ ih

/-- Claim C3: continueLatestGame loads the stored sessions of the community,
keeps exactly those without an end date, and installs one with the greatest
creation date as the current session, returning that creation date of the
installed session; it returns none, leaving the current session untouched,
when the store is empty or holds no running session. -/
theorem continueLatestGame_selects_latest (stored : List BlobGame)
    (current : Option BlobGame) :
    (stored = [] → continueLatestGame stored current = (current, none))
    ∧ (stored.filter (fun g => g.getDateEnded.isNone) = [] →
        continueLatestGame stored current = (current, none))
    ∧ (stored.filter (fun g => g.getDateEnded.isNone) ≠ [] →
        ∃ m, continueLatestGame stored current = (some m, some m.getDateCreated)
          ∧ m ∈ stored ∧ m.getDateEnded = none
          ∧ ∀ x ∈ stored, x.getDateEnded = none →
              x.getDateCreated ≤ m.getDateCreated) := by
  refine ⟨?_, ?_, ?_⟩
  · intro h
    subst h
    simp [continueLatestGame]
  · intro hfilter
    by_cases hlen : stored.length = 0
    · simp [continueLatestGame, hlen]
    · simp [continueLatestGame, hlen, hfilter]
  · intro hne
    have hlen : ¬stored.length = 0 := by
      intro h0
      rw [List.length_eq_zero] at h0
      subst h0
      simp at hne
    have hrlen : ¬(stored.filter (fun g => g.getDateEnded.isNone)).length = 0 := by
      intro h0
      exact hne (List.length_eq_zero.mp h0)
    cases hsort : sortGamesByDateDesc (stored.filter (fun g => g.getDateEnded.isNone)) with
    | nil =>
      exfalso
      rcases List.exists_mem_of_ne_nil _ hne with ⟨y, hy⟩
      have : y ∈ sortGamesByDateDesc (stored.filter (fun g => g.getDateEnded.isNone)) :=
        mem_sortGamesByDateDesc.mpr hy
      rw [hsort] at this
      simp at this
    | cons m rest =>
      have hm : m ∈ stored.filter (fun g => g.getDateEnded.isNone) := by
        have : m ∈ sortGamesByDateDesc (stored.filter (fun g => g.getDateEnded.isNone)) := by
          rw [hsort]
          simp
        exact mem_sortGamesByDateDesc.mp this
      rcases List.mem_filter.mp hm with ⟨hmstored, hmnone⟩
      refine ⟨m, ?_, hmstored, ?_, ?_⟩
      · simp [continueLatestGame, hlen, hrlen, hsort]
      · exact Option.isNone_iff_eq_none.mp (by exact hmnone)
      · intro x hx hxnone
        have hxrun : x ∈ stored.filter (fun g => g.getDateEnded.isNone) :=
          List.mem_filter.mpr ⟨hx, by simp [hxnone]⟩
        have hxsort : x ∈ sortGamesByDateDesc
            (stored.filter (fun g => g.getDateEnded.isNone)) :=
          mem_sortGamesByDateDesc.mpr hxrun
        rw [hsort] at hxsort
        have hpw := pairwise_sortGamesByDateDesc
          (stored.filter (fun g => g.getDateEnded.isNone))
        rw [hsort] at hpw
        rcases List.mem_cons.mp hxsort with rfl | hxrest
        · exact le_refl _
        · exact (List.pairwise_cons.mp hpw).1 x hxrest

/-- Witness for claim C3: with an ended session A and a later running session
B stored, continueLatestGame installs a session with the greatest creation
date among the running ones and returns its creation date. -/
theorem continueLatestGame_selects_latest_witness :
    ([gameA, gameB].filter (fun g => g.getDateEnded.isNone) ≠ [])
      ∧ ∃ m, continueLatestGame [gameA, gameB] none = (some m, some m.getDateCreated)
        ∧ m ∈ [gameA, gameB] ∧ m.getDateEnded = none
        ∧ ∀ x ∈ [gameA, gameB], x.getDateEnded = none →
            x.getDateCreated ≤ m.getDateCreated :=
  ⟨by decide,
   (continueLatestGame_selects_latest [gameA, gameB] none).2.2 (by decide)⟩

/-- With the category name unset, no cached channel passes the admin channel
predicate, since strict equality against an undefined name is always false. -/
theorem find_admin_none_of_category_unset (env : EnvConfig) (guild : GuildState)
    (hcat : env.massMultiplayerEventCategoryName = none) :
    guild.channels.find? (isAdminChannelOf env guild) = none := by
  apply List.find?_eq_none.mpr
  intro c hc
  simp only [isAdminChannelOf, jsStrEq, hcat]
  cases parentName guild c <;> simp

/-- With the admin channel name unset, no cached channel passes the admin
channel predicate, since strict equality against an undefined name is always
false. -/
theorem find_admin_none_of_admin_unset (env : EnvConfig) (guild : GuildState)
    (hadm : env.massMultiplayerEventAdminChannelName = none) :
    guild.channels.find? (isAdminChannelOf env guild) = none := by
  apply List.find?_eq_none.mpr
  intro c hc
  simp only [isAdminChannelOf, jsStrEq, hadm]
  cases parentName guild c <;> simp

/-- Claim C10: getAdminChannel raises the configuration-missing error only
when both the event category name and the admin channel name are unset; with
exactly one of the two unset it does not raise and instead finds no admin
channel, so a broadcast under a half-missing configuration succeeds and
silently omits the admin channel, sending only to the group channels. -/
theorem getAdminChannel_config_cases (env : EnvConfig) (guild : GuildState) :
    (env.massMultiplayerEventCategoryName = none →
     env.massMultiplayerEventAdminChannelName = none →
      getAdminChannel env guild
        = Except.error MassMultiplayerEventServiceError.configurationMissing)
    ∧ (env.massMultiplayerEventCategoryName = none →
       env.massMultiplayerEventAdminChannelName ≠ none →
      getAdminChannel env guild = Except.ok none)
    ∧ (env.massMultiplayerEventCategoryName ≠ none →
       env.massMultiplayerEventAdminChannelName = none →
      getAdminChannel env guild = Except.ok none)
    ∧ (∀ gids excl,
      (env.massMultiplayerEventCategoryName = none
          ∧ env.massMultiplayerEventAdminChannelName ≠ none)
        ∨ (env.massMultiplayerEventCategoryName ≠ none
          ∧ env.massMultiplayerEventAdminChannelName = none) →
      broadcastMessage env guild (some gids) (some excl)
        = Except.ok (groupSendIds guild
            (gids.filter (fun gid => !(excl.contains gid))))) := by
  have hhalf : ∀ hcat : env.massMultiplayerEventCategoryName = none,
      ∀ hadm : env.massMultiplayerEventAdminChannelName ≠ none,
      getAdminChannel env guild = Except.ok none := by
    intro hcat hadm
    rcases Option.ne_none_iff_exists.mp hadm with ⟨a, ha⟩
    simp [getAdminChannel, hcat, ← ha, find_admin_none_of_category_unset env guild hcat]
  have hhalf2 : ∀ hcat : env.massMultiplayerEventCategoryName ≠ none,
      ∀ hadm : env.massMultiplayerEventAdminChannelName = none,
      getAdminChannel env guild = Except.ok none := by
    intro hcat hadm
    rcases Option.ne_none_iff_exists.mp hcat with ⟨a, ha⟩
    simp [getAdminChannel, hadm, ← ha, find_admin_none_of_admin_unset env guild hadm]
  refine ⟨?_, hhalf, hhalf2, ?_⟩
  · intro hcat hadm
    simp [getAdminChannel, hcat, hadm]
  · intro gids excl hor
    have hga : getAdminChannel env guild = Except.ok none := by
      rcases hor with ⟨hcat, hadm⟩ | ⟨hcat, hadm⟩
      · exact hhalf hcat hadm
      · exact hhalf2 hcat hadm
    simp [broadcastMessage, hga]

/-- Witness for claim C10: with only the admin name configured, getAdminChannel
returns none rather than raising, and a broadcast sends only to the group text
channel even though an admin channel exists in the cache. -/
theorem getAdminChannel_config_cases_witness :
    getAdminChannel envHalfAdminOnly demoGuild = Except.ok none
      ∧ broadcastMessage envHalfAdminOnly broadcastAdminGuild (some [10, 11]) (some [])
          = Except.ok (groupSendIds broadcastAdminGuild
              (([10, 11] : List Nat).filter
                (fun gid => !(([] : List Nat).contains gid)))) :=
  ⟨(getAdminChannel_config_cases envHalfAdminOnly demoGuild).2.1 (by decide) (by decide),
   (getAdminChannel_config_cases envHalfAdminOnly broadcastAdminGuild).2.2.2 [10, 11] []
     (Or.inl ⟨by decide, by decide⟩)⟩

/-- Counterexample to claim C8 as stated: with a topology made of one text and
one voice group channel and an empty exclusion list, the broadcast sends only
to the text channel, so the non-excluded voice group channel receives
nothing. -/
theorem broadcast_targets_counterexample :
    (11 ∈ ([10, 11] : List Nat)) ∧ (11 ∉ ([] : List Nat))
      ∧ broadcastMessage envFull broadcastGuild (some [10, 11]) (some [])
          = Except.ok [10]
      ∧ 11 ∉ ([10] : List Nat) :=
  ⟨by decide, by decide, rfl, by decide⟩

/-- Membership in the group leg of a broadcast, with an explicit accumulator:
an identifier is collected exactly when it was already in the accumulator or
is listed and resolves to a cached text channel. -/
theorem mem_groupSendIds_aux (guild : GuildState) (l : List Nat)
    (acc : List Nat) (x : Nat) :
    x ∈ l.foldl (fun memo gid =>
        match guild.channels.find? (fun c => c.id == gid) with
        | some c => if c.type == ChannelType.guildText then memo ++ [c.id] else memo
        | none => memo) acc
      ↔ x ∈ acc ∨ (x ∈ l ∧ ∃ c, guild.channels.find? (fun ch => ch.id == x) = some c
          ∧ c.type = ChannelType.guildText) := by
  induction l generalizing acc with
  | nil => simp
  | cons gid rest ih =>
    simp only [List.foldl_cons]
    cases hfind : guild.channels.find? (fun c => c.id == gid) with
    | none =>
      rw [ih]
      constructor
      · intro h
        rcases h with h | ⟨hrest, hc⟩
        · exact Or.inl h
        · exact Or.inr ⟨List.mem_cons_of_mem _ hrest, hc⟩
      · intro h
        rcases h with h | ⟨hmem, c, hfc, htype⟩
        · exact Or.inl h
        · rcases List.mem_cons.mp hmem with rfl | hrest
          · rw [hfind] at hfc
            exact absurd hfc (by simp)
          · exact Or.inr ⟨hrest, c, hfc, htype⟩
    | some c =>
      have hcid : c.id = gid := by
        have := List.find?_some hfind
        simpa using this
      by_cases htext : c.type = ChannelType.guildText
      · simp only [htext, beq_self_eq_true, if_true]
        rw [ih]
        constructor
        · intro h
          rcases h with h | ⟨hrest, hc⟩
          · rcases List.mem_append.mp h with h | h
            · exact Or.inl h
            · have hx : x = c.id := by simpa using h
              subst hx
              rw [hcid]
              exact Or.inr ⟨List.mem_cons_self _ _, c, hcid ▸ hfind, htext⟩
          · exact Or.inr ⟨List.mem_cons_of_mem _ hrest, hc⟩
        · intro h
          rcases h with h | ⟨hmem, c2, hfc, htype2⟩
          · exact Or.inl (List.mem_append.mpr (Or.inl h))
          · rcases List.mem_cons.mp hmem with rfl | hrest
            · rw [hfind] at hfc
              have : c2 = c := by
                injection hfc.symm
              subst this
              refine Or.inl (List.mem_append.mpr (Or.inr ?_))
              simp [hcid]
            · exact Or.inr ⟨hrest, c2, hfc, htype2⟩
      · have hbeq : (c.type == ChannelType.guildText) = false := by
          simpa using htext
        simp only [hbeq, Bool.false_eq_true, if_false]
        rw [ih]
        constructor
        · intro h
          rcases h with h | ⟨hrest, hc⟩
          · exact Or.inl h
          · exact Or.inr ⟨List.mem_cons_of_mem _ hrest, hc⟩
        · intro h
          rcases h with h | ⟨hmem, c2, hfc, htype2⟩
          · exact Or.inl h
          · rcases List.mem_cons.mp hmem with rfl | hrest
            · rw [hfind] at hfc
              have : c2 = c := by
                injection hfc.symm
              subst this
              exact absurd htype2 htext
            · exact Or.inr ⟨hrest, c2, hfc, htype2⟩

/-- Membership in the group leg of a broadcast: an identifier is sent to
exactly when it is listed and resolves to a cached text channel. -/
theorem mem_groupSendIds (guild : GuildState) (l : List Nat) (x : Nat) :
    x ∈ groupSendIds guild l
      ↔ x ∈ l ∧ ∃ c, guild.channels.find? (fun ch => ch.id == x) = some c
          ∧ c.type = ChannelType.guildText := by
  have h := mem_groupSendIds_aux guild l [] x
  simpa [groupSendIds] using h

/-- Claim C8 as amended: with an exclusion list that is a subset of the group
identifiers and an admin channel lookup that does not raise, the broadcast
succeeds; it sends nothing to any excluded group channel, sends to every
non-excluded group identifier that resolves to a cached text channel (voice
group channels and unresolvable identifiers are skipped), and sends to the
admin channel when one was found. Each target is collected independently of
the other sends. -/
theorem broadcast_targets (env : EnvConfig) (guild : GuildState)
    (gids excl : List Nat) (adminOpt : Option GuildChannel)
    (hsub : ∀ x ∈ excl, x ∈ gids)
    (hga : getAdminChannel env guild = Except.ok adminOpt)
    (hadmng : ∀ ac, adminOpt = some ac → ac.id ∉ gids) :
    ∃ sent, broadcastMessage env guild (some gids) (some excl) = Except.ok sent
      ∧ (∀ x ∈ excl, x ∉ sent)
      ∧ (∀ gid ∈ gids, gid ∉ excl →
          ∀ c, guild.channels.find? (fun ch => ch.id == gid) = some c →
            c.type = ChannelType.guildText → gid ∈ sent)
      ∧ (∀ ac, adminOpt = some ac → ac.id ∈ sent) := by
  have hmemrem : ∀ x : Nat,
      x ∈ gids.filter (fun gid => !(excl.contains gid)) ↔ x ∈ gids ∧ x ∉ excl := by
    intro x
    rw [List.mem_filter]
    simp
  cases adminOpt with
  | none =>
    refine ⟨groupSendIds guild (gids.filter (fun gid => !(excl.contains gid))),
      ?_, ?_, ?_, ?_⟩
    · simp [broadcastMessage, hga]
    · intro x hx hmem
      rcases (mem_groupSendIds guild _ x).mp hmem with ⟨hrem, _⟩
      exact ((hmemrem x).mp hrem).2 hx
    · intro gid hgid hnex c hfc htype
      exact (mem_groupSendIds guild _ gid).mpr
        ⟨(hmemrem gid).mpr ⟨hgid, hnex⟩, c, hfc, htype⟩
    · intro ac hac
      exact absurd hac (by simp)
  | some ac =>
    refine ⟨groupSendIds guild (gids.filter (fun gid => !(excl.contains gid))) ++ [ac.id],
      ?_, ?_, ?_, ?_⟩
    · simp [broadcastMessage, hga]
    · intro x hx hmem
      rcases List.mem_append.mp hmem with hmem | hmem
      · rcases (mem_groupSendIds guild _ x).mp hmem with ⟨hrem, _⟩
        exact ((hmemrem x).mp hrem).2 hx
      · have hxac : x = ac.id := by simpa using hmem
        rw [hxac] at hx
        exact hadmng ac rfl (hsub _ hx)
    · intro gid hgid hnex c hfc htype
      refine List.mem_append.mpr (Or.inl ?_)
      exact (mem_groupSendIds guild _ gid).mpr
        ⟨(hmemrem gid).mpr ⟨hgid, hnex⟩, c, hfc, htype⟩
    · intro ac2 hac2
      have : ac2 = ac := by
        injection hac2.symm
      subst this
      simp

/-- Witness for the amended claim C8: excluding the voice identifier, the
broadcast reaches the group text channel and the admin channel, and the
excluded identifier receives nothing. -/
theorem broadcast_targets_witness :
    ∃ sent, broadcastMessage envFull broadcastAdminGuild (some [10, 11]) (some [11])
        = Except.ok sent
      ∧ (∀ x ∈ ([11] : List Nat), x ∉ sent)
      ∧ (∀ gid ∈ ([10, 11] : List Nat), gid ∉ ([11] : List Nat) →
          ∀ c, broadcastAdminGuild.channels.find? (fun ch => ch.id == gid) = some c →
            c.type = ChannelType.guildText → gid ∈ sent)
      ∧ (∀ ac, (some adminChannel : Option GuildChannel) = some ac → ac.id ∈ sent) :=
  broadcast_targets envFull broadcastAdminGuild [10, 11] [11] (some adminChannel)
    (by decide) rfl (by intro ac hac; cases hac; decide)

/-- The creation loop of createGroupChannels appends exactly the channels
described by groupChannelsFrom, advances the platform identifier by two per
group, and appends the new identifiers to the entry. -/
theorem foldl_createOneGroup (categoryId : Nat) (ks : List Nat) (g : GuildState)
    (ids : List Nat) :
    ks.foldl (createOneGroup categoryId) (g, ids) =
      ({ channels := g.channels ++ groupChannelsFrom categoryId g.nextChannelId ks,
         nextChannelId := g.nextChannelId + 2 * ks.length },
       ids ++ (groupChannelsFrom categoryId g.nextChannelId ks).map GuildChannel.id) := by
  induction ks generalizing g ids with
  | nil => simp [groupChannelsFrom]
  | cons k rest ih =>
    simp only [List.foldl_cons]
    rw [show createOneGroup categoryId (g, ids) k =
        ({ channels := g.channels ++
            [{ id := g.nextChannelId, name := "groupe-" ++ toString k,
               type := ChannelType.guildText, parentId := some categoryId },
             { id := g.nextChannelId + 1, name := "voice-groupe-" ++ toString k,
               type := ChannelType.guildVoice, parentId := some categoryId }],
           nextChannelId := g.nextChannelId + 2 },
         ids ++ [g.nextChannelId, g.nextChannelId + 1]) from by
      simp [createOneGroup, createChannel]]
    rw [ih]
    simp only [groupChannelsFrom, List.map_cons, List.length_cons, Prod.mk.injEq,
      GuildState.mk.injEq]
    refine ⟨⟨?_, ?_⟩, ?_⟩
    · simp [List.append_assoc]
    · omega
    · simp [List.append_assoc]

/-- The identifiers of the channels described by groupChannelsFrom form the
contiguous range of length twice the number of groups. -/
theorem groupChannelsFrom_map_id (categoryId n0 : Nat) (ks : List Nat) :
    (groupChannelsFrom categoryId n0 ks).map GuildChannel.id
      = List.range' n0 (2 * ks.length) := by
  induction ks generalizing n0 with
  | nil => simp [groupChannelsFrom]
  | cons k rest ih =>
    have h2 : 2 * (k :: rest).length = 2 * rest.length + 1 + 1 := by
      simp [List.length_cons]
      omega
    rw [h2, List.range'_succ, List.range'_succ]
    simp only [groupChannelsFrom, List.map_cons, ih]

/-- The channel kinds described by groupChannelsFrom for three groups are
three text channels, each followed by its voice companion. -/
theorem groupChannelsFrom_types_three (categoryId n0 : Nat) :
    (groupChannelsFrom categoryId n0 [1, 2, 3]).map (fun c => c.type)
      = [ChannelType.guildText, ChannelType.guildVoice,
         ChannelType.guildText, ChannelType.guildVoice,
         ChannelType.guildText, ChannelType.guildVoice] := by
  simp [groupChannelsFrom]

/-- A find over an appended cache skips a prefix on which the predicate is
false everywhere. -/
theorem find?_append_of_none {p : GuildChannel → Bool} {l1 l2 : List GuildChannel}
    (h : ∀ c ∈ l1, p c = false) : (l1 ++ l2).find? p = l2.find? p := by
  rw [List.find?_append, List.find?_eq_none.mpr (fun c hc => by simp [h c hc])]
  rfl

/-- Claim C7: for a community whose configured event category resolves, whose
topology entry is empty or absent, and whose cached channel identifiers are
all below the next platform identifier, creating three groups appends six
fresh channels (alternating text and voice) whose identifiers are the next
six platform identifiers; the following cleanGroupChannels empties the
topology entry, attempts deletion of exactly those six identifiers, and
restores the original channel cache; a second cleanGroupChannels on the now
empty entry succeeds as a no-op, attempting no deletion. -/
theorem createGroups_cleanGroups_roundtrip (env : EnvConfig) (guild : GuildState)
    (entry : Option (List Nat)) (categoryName : String) (categoryId : Nat)
    (hcat : env.massMultiplayerEventCategoryName = some categoryName)
    (hcatid : getCategoryIdByName guild categoryName = some categoryId)
    (hentry : entry.getD [] = [])
    (hfresh : ∀ c ∈ guild.channels, c.id < guild.nextChannelId) :
    ∃ guild1 ids, createGroupChannels env guild entry 3 = Except.ok (guild1, ids)
      ∧ ids = List.range' guild.nextChannelId 6
      ∧ ids = (groupChannelsFrom categoryId guild.nextChannelId [1, 2, 3]).map
          GuildChannel.id
      ∧ guild1.channels = guild.channels
          ++ groupChannelsFrom categoryId guild.nextChannelId [1, 2, 3]
      ∧ (groupChannelsFrom categoryId guild.nextChannelId [1, 2, 3]).map
          (fun c => c.type)
        = [ChannelType.guildText, ChannelType.guildVoice,
           ChannelType.guildText, ChannelType.guildVoice,
           ChannelType.guildText, ChannelType.guildVoice]
      ∧ ∃ guild2, cleanGroupChannels guild1 (some ids) = Except.ok (guild2, [], ids)
          ∧ guild2.channels = guild.channels
          ∧ cleanGroupChannels guild2 (some []) = Except.ok (guild2, [], []) := by
  have hrange3 : (List.range 3).map (fun i => i + 1) = [1, 2, 3] := by decide
  have hmapid := groupChannelsFrom_map_id categoryId guild.nextChannelId [1, 2, 3]
  have hlen : (2 : Nat) * ([1, 2, 3] : List Nat).length = 6 := by decide
  rw [hlen] at hmapid
  set n0 := guild.nextChannelId with hn0
  set created := groupChannelsFrom categoryId n0 [1, 2, 3] with hcreated
  have hcreate : createGroupChannels env guild entry 3 =
      Except.ok ({ channels := guild.channels ++ created, nextChannelId := n0 + 6 },
        created.map GuildChannel.id) := by
    simp only [createGroupChannels, hcat, hcatid, hrange3]
    rw [foldl_createOneGroup]
    rw [hentry]
    simp [hcreated]
  refine ⟨{ channels := guild.channels ++ created, nextChannelId := n0 + 6 },
    created.map GuildChannel.id, hcreate, hmapid, rfl, rfl,
    groupChannelsFrom_types_three categoryId n0, ?_⟩
  have hone : ∀ gid ∈ created.map GuildChannel.id, n0 ≤ gid ∧ gid < n0 + 6 := by
    intro gid hgid
    rw [hmapid] at hgid
    exact List.mem_range'_1.mp hgid
  have holdne : ∀ gid, n0 ≤ gid → ∀ c ∈ guild.channels, (c.id == gid) = false := by
    intro gid hge c hc
    have := hfresh c hc
    simp only [beq_eq_false_iff_ne, ne_eq]
    omega
  have hdel : (created.map GuildChannel.id).filter (fun gid =>
      ((guild.channels ++ created).find? (fun c => c.id == gid)).isSome)
      = created.map GuildChannel.id := by
    apply List.filter_eq_self.mpr
    intro gid hgid
    rw [find?_append_of_none (holdne gid (hone gid hgid).1)]
    rcases List.mem_map.mp hgid with ⟨ch, hch, hchid⟩
    simp only [List.find?_isSome]
    exact ⟨ch, hch, by simp [hchid]⟩
  have hrem : (guild.channels ++ created).filter (fun c =>
      !((created.map GuildChannel.id).contains c.id)) = guild.channels := by
    have hl : guild.channels.filter (fun c =>
        !((created.map GuildChannel.id).contains c.id)) = guild.channels := by
      apply List.filter_eq_self.mpr
      intro c hc
      have hlt := hfresh c hc
      have hno : c.id ∉ created.map GuildChannel.id := by
        rw [hmapid]
        intro hmem
        have := (List.mem_range'_1.mp hmem).1
        omega
      simpa using hno
    have hr : created.filter (fun c =>
        !((created.map GuildChannel.id).contains c.id)) = [] := by
      apply List.filter_eq_nil_iff.mpr
      intro ch hch
      have hin : ch.id ∈ created.map GuildChannel.id := List.mem_map_of_mem _ hch
      simpa using hin
    rw [List.filter_append, hl, hr, List.append_nil]
  refine ⟨{ channels := guild.channels, nextChannelId := n0 + 6 }, ?_, rfl, ?_⟩
  · simp only [cleanGroupChannels]
    rw [hdel, hrem]
  · simp [cleanGroupChannels]

/-- Witness for claim C7: on the demo community, creating three groups and
cleaning them attempts deletion of exactly the six created identifiers and
restores the original channel cache, and a second clean is a harmless
no-op. -/
theorem createGroups_cleanGroups_roundtrip_witness :
    ∃ guild1 ids, createGroupChannels envFull demoGuild none 3 = Except.ok (guild1, ids)
      ∧ ids = List.range' demoGuild.nextChannelId 6
      ∧ ids = (groupChannelsFrom 0 demoGuild.nextChannelId [1, 2, 3]).map
          GuildChannel.id
      ∧ guild1.channels = demoGuild.channels
          ++ groupChannelsFrom 0 demoGuild.nextChannelId [1, 2, 3]
      ∧ (groupChannelsFrom 0 demoGuild.nextChannelId [1, 2, 3]).map
          (fun c => c.type)
        = [ChannelType.guildText, ChannelType.guildVoice,
           ChannelType.guildText, ChannelType.guildVoice,
           ChannelType.guildText, ChannelType.guildVoice]
      ∧ ∃ guild2, cleanGroupChannels guild1 (some ids) = Except.ok (guild2, [], ids)
          ∧ guild2.channels = demoGuild.channels
          ∧ cleanGroupChannels guild2 (some []) = Except.ok (guild2, [], []) :=
  createGroups_cleanGroups_roundtrip envFull demoGuild none "events" 0
    rfl rfl rfl (by decide)

end LovecraftBot
